import Mathlib

/-!
Verification of the lifecycle controller in `SKProfileCreator.js`.

The script drives a local IPFS (kubo) node: it installs the binary if
needed, initializes a repository, imports or generates an IPNS key named
"profile", stages a small JSON document tree, adds it to the store,
reconciles the recursive pin set, publishes the content root under the
key, and on shutdown exports the key and stops the daemon.

The shallow embedding below models each subprocess invocation through a
pure world function mapping a command string to the outcome the external
node binary would produce, and tracks the observable process state
(pin set, issued commands, stderr writes, warning writes) explicitly.
-/

namespace SKProfileCreator

/-! ### JavaScript string primitives

The script manipulates command output with `String.prototype.split`,
`String.prototype.trim` and a trailing-slash `replace`. They are embedded
here as structurally recursive functions over the character list of a
string, matching the JavaScript semantics (split on every occurrence of a
one-character separator, keeping empty fragments; trim removes leading and
trailing whitespace). -/

/-- `str.split(sep)` for a one-character separator, on character lists:
splitting the empty string yields one empty fragment, and every occurrence
of the separator starts a new fragment. -/
def jsSplitList (sep : Char) : List Char → List (List Char)
  | [] => [[]]
  | c :: cs =>
    match jsSplitList sep cs with
    | [] => [[]]
    | g :: gs => if c = sep then [] :: g :: gs else (c :: g) :: gs

/-- `str.split(sep)` for a one-character separator. -/
def jsSplit (sep : Char) (s : String) : List String :=
  (jsSplitList sep s.data).map String.mk

/-- Whitespace characters relevant to the command output handled by the
script (the output is ASCII). -/
def isWsChar (c : Char) : Bool :=
  c = ' ' || c = '\t' || c = '\n' || c = '\r'

/-- `str.trim()`: remove leading and trailing whitespace. -/
def jsTrim (s : String) : String :=
  ⟨((s.data.dropWhile isWsChar).reverse.dropWhile isWsChar).reverse⟩

/-- Outcome of one external command, as seen by `execSync`: either captured
stdout, or a failure (a thrown error carrying a message). Models the
`child_process.execSync` result consumed by the `run` helper. -/
inductive CmdResult where
  | ok : String → CmdResult
  | error : String → CmdResult
deriving DecidableEq, Repr

/-- The external node binary, as a pure map from command line to outcome. -/
def World : Type := String → CmdResult

/-- Result of a JavaScript code fragment: normal completion, a thrown
exception propagating to an enclosing catch, or process termination via
`process.exit` (which no catch can intercept). -/
inductive PhaseOut (α : Type) where
  | ok : α → PhaseOut α
  | thrown : String → PhaseOut α
  | exited : Nat → PhaseOut α
deriving DecidableEq, Repr

/-- Observable state threaded through the controller: the recursive pin
set of the node, the commands issued so far, the lines written to the
error stream by `console.error`, and the lines written by `console.warn`. -/
structure PState where
  pins : List String
  issued : List String
  stderrLog : List String
  warnLog : List String
deriving DecidableEq, Repr

/-- Initial state: an empty pin set and no output yet. -/
def pstate0 : PState := ⟨[], [], [], []⟩

/-- The diagnostic line `run` writes to the error stream on failure
(`console.error` with the failed command and the error message). -/
def failLine (cmd msg : String) : String :=
  "❌ Failed: " ++ cmd ++ "\n" ++ msg

/-- The `run(cmd)` helper of the script: executes the command, returns the
trimmed output on success; on failure it writes the diagnostic to the
error stream and calls `process.exit(1)`. It never throws to its caller. -/
def runW (w : World) (s : PState) (cmd : String) : PState × PhaseOut String :=
  match w cmd with
  | .ok out => ({ s with issued := s.issued ++ [cmd] }, .ok (jsTrim out))
  | .error msg =>
      ({ s with issued := s.issued ++ [cmd],
                stderrLog := s.stderrLog ++ [failLine cmd msg] }, .exited 1)

/-! ### Command strings issued by the controller -/

def pinLsCmd : String := "ipfs pin ls --type=recursive"

def pinRmCmd (cid : String) : String := "ipfs pin rm " ++ cid

def addCmd : String := "ipfs add -Qr --cid-version=1 --raw-leaves \"profile\""

def publishCmd (hash : String) : String :=
  "ipfs name publish --key=profile /ipfs/" ++ hash

def exportCmd : String := "ipfs key export profile --output=\"profile.key\""

def initCmd : String := "ipfs init"

def configGatewayCmd : String :=
  "ipfs config Addresses.Gateway /ip4/127.0.0.1/tcp/8080"

def configApiCmd : String :=
  "ipfs config Addresses.API /ip4/127.0.0.1/tcp/5001"

/-! ### Pin-list parsing and pin reconciliation (main, lines 184-196) -/

/-- `line.split(" ")[0]`: the first space-delimited token of one pin-list
line (the content identifier; the second token is the pin type). -/
def parsePinLine (line : String) : String :=
  (jsSplit ' ' line).headD ""

/-- The content identifiers read from the trimmed `ipfs pin ls` output:
`run(...).split("\n").map((line) => line.split(" ")[0])`. -/
def listedCids (out : String) : List String :=
  (jsSplit '\n' out).map parsePinLine

/-- `.filter((cid) => cid && cid !== hash)`: the identifiers the cleanup
loop will remove — every listed, non-empty identifier other than the
just-added root. -/
def pinsToRemove (out hash : String) : List String :=
  (listedCids out).filter (fun cid => cid != "" && cid != hash)

/-- The `for (const cid of existingPins) run(`ipfs pin rm ...`)` loop:
removes each identifier in turn from the node pin set; a command failure
terminates the process (inside `run`), skipping the remaining removals. -/
def pinRmLoop (w : World) : List String → PState → PState × PhaseOut Unit
  | [], s => (s, .ok ())
  | cid :: rest, s =>
    match runW w s (pinRmCmd cid) with
    | (s1, .ok _) => pinRmLoop w rest { s1 with pins := s1.pins.filter (fun p => p != cid) }
    | (s1, .thrown e) => (s1, .thrown e)
    | (s1, .exited n) => (s1, .exited n)

/-- Body of the `try` block of the pin cleanup: list the recursive pins,
compute the identifiers to remove, and run the removal loop. -/
def pinCleanupBody (w : World) (hash : String) (s : PState) : PState × PhaseOut Unit :=
  let r := runW w s pinLsCmd
  match r.2 with
  | .ok out => pinRmLoop w (pinsToRemove out hash) r.1
  | .thrown e => (r.1, .thrown e)
  | .exited n => (r.1, .exited n)

/-- The whole pin-cleanup step, `try { ... } catch (e) { console.warn }`:
a thrown exception is caught and logged as a warning; normal completion
and `process.exit` pass through (a catch cannot intercept an exit). -/
def pinCleanupStep (w : World) (hash : String) (s : PState) : PState × PhaseOut Unit :=
  let r := pinCleanupBody w hash s
  match r.2 with
  | .thrown e =>
      ({ r.1 with warnLog := r.1.warnLog ++ ["⚠️ Failed to clean old pins: " ++ e] }, .ok ())
  | x => (r.1, x)

/-! ### Publish confirmation parsing (main, lines 198-199) -/

/-- `replace(/\/$/, "")`: strip a single trailing slash if present. -/
def stripTrailingSlash (s : String) : String :=
  if s.data.getLast? = some '/' then ⟨s.data.dropLast⟩ else s

/-- `publishOut.split(" ")[2].trim().replace(/\/$/, "")`: the third
space-delimited token of the publish confirmation, trimmed, with one
trailing slash removed. `none` models the TypeError thrown when the
output has fewer than three tokens. -/
def extractPublishedName (publishOut : String) : Option String :=
  ((jsSplit ' ' publishOut).get? 2).map (fun t => stripTrailingSlash (jsTrim t))

/-! ### The publish phase of `main` (lines 182-204): add, pin cleanup,
publish, confirmation parsing. -/

/-- The tail of `main` from the `ipfs add` call through extraction of the
published name. `ipfs add -Qr` pins the added root recursively, so the
returned hash joins the pin set. On success the result carries the
extracted published name. -/
def publishPhase (w : World) (s : PState) : PState × PhaseOut String :=
  let ra := runW w s addCmd
  match ra.2 with
  | .thrown e => (ra.1, .thrown e)
  | .exited n => (ra.1, .exited n)
  | .ok hash =>
    let s1 := { ra.1 with pins := if ra.1.pins.contains hash then ra.1.pins else ra.1.pins ++ [hash] }
    let rc := pinCleanupStep w hash s1
    match rc.2 with
    | .thrown e => (rc.1, .thrown e)
    | .exited n => (rc.1, .exited n)
    | .ok _ =>
      let rp := runW w rc.1 (publishCmd hash)
      match rp.2 with
      | .thrown e => (rp.1, .thrown e)
      | .exited n => (rp.1, .exited n)
      | .ok out =>
        match extractPublishedName out with
        | some ipns => (rp.1, .ok ipns)
        | none => (rp.1, .thrown "TypeError")

/-! ### Shutdown phase of `main` (lines 206-216): key export, daemon kill. -/

/-- The tail of `main` after the operator acknowledgment:
`try { run(key export) } catch (e) { console.warn }` followed by
`daemon.kill()`. The boolean result records whether `daemon.kill()` was
reached. -/
def shutdownPhase (w : World) (s : PState) : PState × PhaseOut Bool :=
  let r := runW w s exportCmd
  match r.2 with
  | .ok _ => (r.1, .ok true)
  | .thrown e =>
      ({ r.1 with warnLog := r.1.warnLog ++ ["⚠️ Failed to export key: " ++ e] }, .ok true)
  | .exited n => (r.1, .exited n)

/-! ### Identity step: `importUserKey` (lines 126-142) -/

/-- Which side effect the identity step performs: nothing, a key import,
or the generation of a fresh RSA key. -/
inductive KeyAction where
  | noAction : KeyAction
  | importKey : KeyAction
  | genKey : KeyAction
deriving DecidableEq, Repr

/-- The branch structure of `importUserKey`: the key list is split on
newlines and searched for the exact name "profile"; if found, nothing is
done; otherwise the saved export file is imported if it exists on disk,
else a new key is generated. -/
def importUserKey (keyListOut : String) (exportFileExists : Bool) : KeyAction :=
  if (jsSplit '\n' keyListOut).contains "profile" then .noAction
  else if exportFileExists then .importKey
  else .genKey

/-! ### Repository initialization: `initIPFSRepo` (lines 118-124) -/

/-- The configuration state of the repository: whether the `config`
marker file exists, and the gateway and API addresses recorded in it
(`none` while no configuration exists). -/
structure RepoConfig where
  initialized : Bool
  gateway : Option String
  api : Option String
deriving DecidableEq, Repr

/-- The configuration produced by `ipfs init` on a fresh repository:
the marker file now exists, with the kubo default addresses. -/
def ipfsInitConfig : RepoConfig :=
  { initialized := true
    gateway := some "/ip4/127.0.0.1/tcp/8080"
    api := some "/ip4/127.0.0.1/tcp/5001" }

/-- `initIPFSRepo`: run `ipfs init` only when the `config` marker file is
absent, then set the gateway and API addresses unconditionally. -/
def initIPFSRepo (s : RepoConfig) : RepoConfig :=
  let s1 := if s.initialized then s else ipfsInitConfig
  { s1 with gateway := some "/ip4/127.0.0.1/tcp/8080"
            api := some "/ip4/127.0.0.1/tcp/5001" }

/-- The commands `initIPFSRepo` issues, in order: `ipfs init` only when
the marker is absent, then the two `ipfs config` commands always. -/
def initIPFSRepoCmds (s : RepoConfig) : List String :=
  (if s.initialized then [] else [initCmd]) ++ [configGatewayCmd, configApiCmd]

/-! ### Content staging (main, lines 164-180) -/

/-- The document written to `profile/profile.json`:
`{ name, bio, created: timestamp }`. -/
structure ProfileDoc where
  name : String
  bio : String
  created : String
deriving DecidableEq, Repr

/-- The document written to `profile/posts/post0.json`:
`{ timestamp, content: post }`. -/
structure PostDoc where
  timestamp : String
  content : String
deriving DecidableEq, Repr

/-- The document written to `profile/status_index.json`:
`{ posts: [...] }`. -/
structure StatusIndexDoc where
  posts : List String
deriving DecidableEq, Repr

/-- One staged JSON document. -/
inductive StagedDoc where
  | profile : ProfileDoc → StagedDoc
  | post : PostDoc → StagedDoc
  | statusIndex : StatusIndexDoc → StagedDoc
deriving DecidableEq, Repr

/-- The three `fs.writeFileSync` calls of the staging step, as path and
document content, in the order the script performs them. -/
def stageProfileTree (name bio post timestamp : String) : List (String × StagedDoc) :=
  [ ("profile/profile.json", .profile ⟨name, bio, timestamp⟩),
    ("profile/posts/post0.json", .post ⟨timestamp, post⟩),
    ("profile/status_index.json", .statusIndex ⟨["/posts/post0.json"]⟩) ]

/-! ### Binary check: `checkIPFS` (lines 66-74) and the install guard
(lines 145-147) -/

/-- `checkIPFS()`: false when the binary file is absent; otherwise the
result of invoking the binary with `--version` (true exactly when that
invocation succeeds). -/
def checkIPFS (binaryPresent versionOk : Bool) : Bool :=
  if !binaryPresent then false else versionOk

/-- The guard in `main`: `if (!checkIPFS()) await downloadAndInstallIPFS()`. -/
def installRuns (binaryPresent versionOk : Bool) : Bool :=
  !(checkIPFS binaryPresent versionOk)

/-! ## Concrete worlds used as witnesses and counterexamples -/

/-- A world in which every command succeeds with empty output except the
pin listing, which returns two recursively pinned roots. -/
def lsOutGood : String := "bafyOld recursive\nbafyNew recursive"

/-- World for the pin-reconciliation witness: the pin listing reports two
roots and every other command (in particular every `pin rm`) succeeds. -/
def wGood : World := fun cmd => if cmd = pinLsCmd then .ok lsOutGood else .ok ""

/-- State for the pin-reconciliation witness: the two listed roots are
pinned, the second being the just-added content root. -/
def pinStateGood : PState := ⟨["bafyOld", "bafyNew"], [], [], []⟩

/-- World in which the `ipfs add` command fails (for example, disk full)
and every other command succeeds. -/
def wAddFails : World :=
  fun cmd => if cmd = addCmd then .error "disk full" else .ok ""

/-- World in which the recursive pin listing fails and every other
command succeeds, returning a root hash. -/
def wPinLsFails : World :=
  fun cmd => if cmd = pinLsCmd then .error "pin service unavailable" else .ok "bafyroot"

/-- World in which the key export fails and every other command succeeds. -/
def wExportFails : World :=
  fun cmd => if cmd = exportCmd then .error "key not found" else .ok ""

/-- World in which every command succeeds with the same padded output. -/
def wEcho : World := fun _ => .ok " ok "

/-! ## Theorems -/

/-- Claim C10: the command-execution helper `run` never throws to its
caller and never returns on command failure — it either returns the
trimmed command output on success, or terminates the whole process with
exit code 1 after writing the failed command and error message to the
error stream. Consequently no try/catch around it can observe a command
failure. -/
theorem run_no_throw (w : World) (s : PState) (cmd : String) :
    (∀ e, (runW w s cmd).2 ≠ .thrown e) ∧
    (∀ out, w cmd = .ok out →
      runW w s cmd = ({ s with issued := s.issued ++ [cmd] }, .ok (jsTrim out))) ∧
    (∀ msg, w cmd = .error msg →
      runW w s cmd = ({ s with issued := s.issued ++ [cmd],
                               stderrLog := s.stderrLog ++ [failLine cmd msg] }, .exited 1)) := by
  refine ⟨fun e => ?_, fun out ho => by simp [runW, ho], fun msg he => by simp [runW, he]⟩
  cases h : w cmd <;> simp [runW, h]

/-- Witness for C10 at a concrete world and command. -/
theorem run_no_throw_witness :
    (runW wEcho pstate0 initCmd).2 ≠ PhaseOut.thrown "err" ∧
    runW wEcho pstate0 initCmd =
      ({ pstate0 with issued := pstate0.issued ++ [initCmd] }, .ok (jsTrim " ok ")) :=
  ⟨(run_no_throw wEcho pstate0 initCmd).1 "err",
   (run_no_throw wEcho pstate0 initCmd).2.1 " ok " rfl⟩

/-- Claim C7: when the `ipfs add` command fails, the process exits with a
non-zero code before any pin-reconciliation or publish command is
attempted (the command trace grows by the add command only), with the
failing command and error text written to the error stream. -/
theorem add_failure_exits (w : World) (s : PState) (msg : String)
    (h : w addCmd = .error msg) :
    publishPhase w s =
      ({ s with issued := s.issued ++ [addCmd],
                stderrLog := s.stderrLog ++ [failLine addCmd msg] }, .exited 1) := by
  simp [publishPhase, runW, h]

/-- Witness for C7: a concrete world whose add command fails with
"disk full". -/
theorem add_failure_exits_witness :
    wAddFails addCmd = .error "disk full" ∧
    publishPhase wAddFails pstate0 =
      ({ pstate0 with issued := pstate0.issued ++ [addCmd],
                      stderrLog := pstate0.stderrLog ++ [failLine addCmd "disk full"] },
        .exited 1) :=
  ⟨by decide, add_failure_exits wAddFails pstate0 "disk full" (by decide)⟩

/-- Claim C2 (code evaluated at the failing input): when the pin-list
command fails, the process terminates with exit code 1 from inside `run`
— the enclosing catch never fires (the warning log stays empty) and the
publish command is never issued, contradicting the claim that the
failure is caught, warned about, and the run proceeds to publish. -/
theorem pin_ls_failure_aborts_run :
    publishPhase wPinLsFails pstate0 =
      (⟨["bafyroot"], [addCmd, pinLsCmd],
        [failLine pinLsCmd "pin service unavailable"], []⟩, .exited 1) := by
  decide

/-- Claim C4 (code evaluated at the failing input): when the key-export
command fails, the process terminates with exit code 1 from inside `run`
— the catch never fires (no warning is logged) and `daemon.kill()` is
never reached, contradicting the claim that shutdown still proceeds. -/
theorem key_export_failure_aborts_shutdown :
    shutdownPhase wExportFails pstate0 =
      (⟨[], [exportCmd], [failLine exportCmd "key not found"], []⟩, .exited 1) := by
  decide

/-- Claim C3 counterexample: on the confirmation text
"Published name: /ipns/k51abc.../" the extracted identifier is not
"k51abc..." — the code does not discard the leading "/ipns/" path
segments. -/
theorem publish_parse_counterexample :
    ¬ (extractPublishedName "Published name: /ipns/k51abc.../" = some "k51abc...") := by
  decide

/-- Claim C3 (amended): on the confirmation text
"Published name: /ipns/k51abc.../" the extracted identifier is
"/ipns/k51abc..." — the third whitespace-delimited token with the
trailing slash stripped and the leading path segments retained. -/
theorem publish_parse_amended :
    extractPublishedName "Published name: /ipns/k51abc.../" = some "/ipns/k51abc..." := by
  decide

/-- Claim C5: the identity step chooses exactly one branch — no action
when a key named "profile" appears in the key-list output; otherwise it
performs an import exactly when the export file exists; otherwise it
generates a key. -/
theorem identity_branch_exclusive (keyListOut : String) (exportFileExists : Bool) :
    ((jsSplit '\n' keyListOut).contains "profile" = true
      → importUserKey keyListOut exportFileExists = .noAction) ∧
    ((jsSplit '\n' keyListOut).contains "profile" = false → exportFileExists = true
      → importUserKey keyListOut exportFileExists = .importKey) ∧
    ((jsSplit '\n' keyListOut).contains "profile" = false → exportFileExists = false
      → importUserKey keyListOut exportFileExists = .genKey) :=
  ⟨fun h => by unfold importUserKey; rw [if_pos h],
   fun h hb => by
    unfold importUserKey
    rw [if_neg (by rw [h]; exact Bool.false_ne_true), if_pos hb],
   fun h hb => by
    unfold importUserKey
    rw [if_neg (by rw [h]; exact Bool.false_ne_true),
        if_neg (by rw [hb]; exact Bool.false_ne_true)]⟩

/-- Witness for C5: the three branches at concrete keystore contents. -/
theorem identity_branch_exclusive_witness :
    (importUserKey "self\nprofile" false = .noAction) ∧
    (importUserKey "self" true = .importKey) ∧
    (importUserKey "self" false = .genKey) :=
  ⟨(identity_branch_exclusive "self\nprofile" false).1 (by decide),
   (identity_branch_exclusive "self" true).2.1 (by decide) rfl,
   (identity_branch_exclusive "self" false).2.2 (by decide) rfl⟩

/-- Removing the elements of `l` one by one from `pins` by filtering is
the same as filtering `pins` by non-membership in `l`. -/
theorem foldl_filter_ne (l pins : List String) :
    l.foldl (fun ps c => ps.filter (fun p => p != c)) pins
      = pins.filter (fun p => decide (p ∉ l)) := by
  induction l generalizing pins with
  | nil => simp
  | cons c rest ih =>
    rw [List.foldl_cons, ih, List.filter_filter]
    refine List.filter_congr ?_
    intro a _
    by_cases h1 : a = c
    · subst h1; simp
    · by_cases h2 : a ∈ rest <;> simp [h1, h2]

/-- In a duplicate-free list containing `root`, keeping only the elements
equal to `root` leaves exactly `[root]`. -/
theorem filter_beq_of_nodup (pins : List String) (root : String)
    (hnodup : pins.Nodup) (hmem : root ∈ pins) :
    pins.filter (fun p => p == root) = [root] := by
  induction pins with
  | nil => cases hmem
  | cons a t ih =>
    obtain ⟨hat, htd⟩ := List.nodup_cons.mp hnodup
    by_cases h : a = root
    · subst h
      have ht : t.filter (fun p => p == a) = [] := by
        refine List.filter_eq_nil_iff.mpr (fun b hb hba => ?_)
        have hba2 : b = a := by simpa using hba
        exact hat (hba2 ▸ hb)
      simp [List.filter_cons, ht]
    · have hmem2 : root ∈ t := by
        rcases List.mem_cons.mp hmem with h1 | h1
        · exact absurd h1.symm h
        · exact h1
      simp [List.filter_cons, h, ih htd hmem2]

/-- Removing from a duplicate-free pin list every non-empty identifier
other than `root` leaves exactly `[root]`. -/
theorem foldl_removals (pins : List String) (root : String)
    (hnodup : pins.Nodup) (hmem : root ∈ pins) (hne : ∀ c ∈ pins, c ≠ "") :
    (pins.filter (fun cid => cid != "" && cid != root)).foldl
        (fun ps c => ps.filter (fun p => p != c)) pins = [root] := by
  rw [foldl_filter_ne]
  have hcongr : ∀ a ∈ pins,
      (decide (a ∉ pins.filter (fun cid => cid != "" && cid != root))) = (a == root) := by
    intro a ha
    by_cases h : a = root
    · have hnm : a ∉ pins.filter (fun cid => cid != "" && cid != root) := by
        intro hmem2
        have hp := (List.mem_filter.mp hmem2).2
        rw [h] at hp
        simp at hp
      simp [hnm, h]
    · have hm : a ∈ pins.filter (fun cid => cid != "" && cid != root) :=
        List.mem_filter.mpr ⟨ha, by simp [hne a ha, h]⟩
      simp [hm, h]
  rw [List.filter_congr hcongr]
  exact filter_beq_of_nodup pins root hnodup hmem

/-- When every removal command succeeds, the removal loop completes
normally, removes each listed identifier from the pin set in order, and
issues exactly one `pin rm` command per identifier. -/
theorem pinRmLoop_all_ok (w : World) : ∀ (l : List String) (s : PState),
    (∀ cid ∈ l, ∃ out, w (pinRmCmd cid) = .ok out) →
    pinRmLoop w l s =
      ({ s with pins := l.foldl (fun ps c => ps.filter (fun p => p != c)) s.pins,
                issued := s.issued ++ l.map pinRmCmd }, .ok ()) := by
  intro l
  induction l with
  | nil => intro s h; simp [pinRmLoop]
  | cons c rest ih =>
    intro s h
    obtain ⟨out, hw⟩ := h c (List.mem_cons_self c rest)
    have ih2 := ih { s with issued := s.issued ++ [pinRmCmd c],
                            pins := s.pins.filter (fun p => p != c) }
      (fun cid hc => h cid (List.mem_cons_of_mem c hc))
    simp only [pinRmLoop, runW, hw]
    rw [ih2]
    simp

/-- Claim C1: for every duplicate-free pin set faithfully reported by the
pin listing, containing the just-added content root, if no removal errors
occur then after the pin-reconciliation step the recursive pin set is
exactly the singleton of the new root — every previously pinned root
other than the new one is removed, and the new root is never scheduled
for removal. -/
theorem pin_reconciliation_exact (w : World) (s : PState) (lsOut root : String)
    (hls : w pinLsCmd = .ok lsOut)
    (hfaith : listedCids (jsTrim lsOut) = s.pins)
    (hnodup : s.pins.Nodup)
    (hmem : root ∈ s.pins)
    (hne : ∀ c ∈ s.pins, c ≠ "")
    (hrm : ∀ cid, ∃ out, w (pinRmCmd cid) = .ok out) :
    (pinCleanupStep w root s).2 = .ok () ∧
    (pinCleanupStep w root s).1.pins = [root] ∧
    root ∉ pinsToRemove (jsTrim lsOut) root := by
  have hpins : pinsToRemove (jsTrim lsOut) root
      = s.pins.filter (fun cid => cid != "" && cid != root) := by
    unfold pinsToRemove; rw [hfaith]
  have hfold : (pinsToRemove (jsTrim lsOut) root).foldl
      (fun ps c => ps.filter (fun p => p != c)) s.pins = [root] := by
    rw [hpins]; exact foldl_removals s.pins root hnodup hmem hne
  have hloop := pinRmLoop_all_ok w (pinsToRemove (jsTrim lsOut) root)
      { s with issued := s.issued ++ [pinLsCmd] } (fun cid _ => hrm cid)
  have hbody : pinCleanupBody w root s =
      ({ s with issued := (s.issued ++ [pinLsCmd])
                  ++ (pinsToRemove (jsTrim lsOut) root).map pinRmCmd,
                pins := [root] }, .ok ()) := by
    unfold pinCleanupBody
    simp only [runW, hls]
    rw [hloop]
    simp [hfold]
  refine ⟨?_, ?_, ?_⟩
  · simp [pinCleanupStep, hbody]
  · simp [pinCleanupStep, hbody]
  · rw [hpins]
    intro hmem2
    have hp := (List.mem_filter.mp hmem2).2
    simp at hp

/-- Witness for C1: a pin listing with one stale root and the new root;
after reconciliation the pin set is exactly the new root. -/
theorem pin_reconciliation_exact_witness :
    (pinCleanupStep wGood "bafyNew" pinStateGood).2 = .ok () ∧
    (pinCleanupStep wGood "bafyNew" pinStateGood).1.pins = ["bafyNew"] ∧
    "bafyNew" ∉ pinsToRemove (jsTrim lsOutGood) "bafyNew" :=
  pin_reconciliation_exact wGood pinStateGood lsOutGood "bafyNew"
    (by decide) (by decide) (by decide) (by decide) (by decide)
    (fun cid => by
      unfold wGood
      by_cases h : pinRmCmd cid = pinLsCmd
      · rw [if_pos h]; exact ⟨lsOutGood, rfl⟩
      · rw [if_neg h]; exact ⟨"", rfl⟩)

/-- Claim C6: repository initialization is idempotent — running it twice
yields the same configuration state as running it once; the init command
is issued exactly when the configuration marker is absent, and the two
address-setting commands are issued on every run (in particular, a second
run issues only the two config commands). -/
theorem repo_init_idempotent (s : RepoConfig) :
    initIPFSRepo (initIPFSRepo s) = initIPFSRepo s ∧
    (initCmd ∈ initIPFSRepoCmds s ↔ s.initialized = false) ∧
    configGatewayCmd ∈ initIPFSRepoCmds s ∧
    configApiCmd ∈ initIPFSRepoCmds s ∧
    initIPFSRepoCmds (initIPFSRepo s) = [configGatewayCmd, configApiCmd] := by
  by_cases h : s.initialized <;>
    simp [initIPFSRepo, initIPFSRepoCmds, ipfsInitConfig, h,
          initCmd, configGatewayCmd, configApiCmd]

/-- Witness for C6 at a fresh (uninitialized) repository state. -/
theorem repo_init_idempotent_witness :
    initIPFSRepo (initIPFSRepo ⟨false, none, none⟩) = initIPFSRepo ⟨false, none, none⟩ ∧
    (initCmd ∈ initIPFSRepoCmds ⟨false, none, none⟩ ↔
      RepoConfig.initialized ⟨false, none, none⟩ = false) ∧
    configGatewayCmd ∈ initIPFSRepoCmds ⟨false, none, none⟩ ∧
    configApiCmd ∈ initIPFSRepoCmds ⟨false, none, none⟩ ∧
    initIPFSRepoCmds (initIPFSRepo ⟨false, none, none⟩) = [configGatewayCmd, configApiCmd] :=
  repo_init_idempotent ⟨false, none, none⟩

/-- Claim C8: for every triple of operator inputs and timestamp, the
staging step writes exactly three JSON documents with the claimed paths
and fields, the status index always holding exactly the one-element list
["/posts/post0.json"]. -/
theorem staged_tree_exact (name bio post timestamp : String) :
    (stageProfileTree name bio post timestamp).length = 3 ∧
    (stageProfileTree name bio post timestamp).lookup "profile/profile.json"
      = some (.profile ⟨name, bio, timestamp⟩) ∧
    (stageProfileTree name bio post timestamp).lookup "profile/posts/post0.json"
      = some (.post ⟨timestamp, post⟩) ∧
    (stageProfileTree name bio post timestamp).lookup "profile/status_index.json"
      = some (.statusIndex ⟨["/posts/post0.json"]⟩) := by
  refine ⟨rfl, ?_, ?_, ?_⟩ <;> rfl

/-- Claim C9: binary installation runs exactly when the binary file is
absent, or present but failing the `--version` probe; it is skipped
exactly when the binary is present and the probe succeeds. -/
theorem install_trigger_exact :
    ∀ binaryPresent versionOk : Bool,
      (installRuns binaryPresent versionOk = true ↔
        (binaryPresent = false ∨ (binaryPresent = true ∧ versionOk = false))) ∧
      (installRuns binaryPresent versionOk = false ↔
        (binaryPresent = true ∧ versionOk = true)) := by
  decide

/-- Witness for C9 at concrete probe outcomes. -/
theorem install_trigger_exact_witness :
    installRuns true false = true ∧ installRuns true true = false :=
  ⟨(install_trigger_exact true false).1.mpr (Or.inr ⟨rfl, rfl⟩),
   (install_trigger_exact true true).2.mpr ⟨rfl, rfl⟩⟩

end SKProfileCreator
